import Mathlib

/-!
Verification of the permutation-test engine in the ChronicPain notebook.

The notebook loads a table of (Group, Result) rows, computes the absolute
difference of the two group means, repeatedly shuffles the group labels to
build a null distribution, and derives an empirical p-value.

The embedding below mirrors the notebook code:
* a row holds a group label and a numeric result; pandas group labels are
  modelled as naturals (the sorted order of naturals stands for the sorted
  order pandas `groupby` applies to the label strings);
* `groupKeys` is the sorted list of distinct labels, as produced by
  `df.groupby(label)`;
* `difference_of_means_abs` reads the means of the groups at positions 0
  and 1 of the grouped frame and returns their absolute difference; when
  fewer than two groups exist the Python code raises (IndexError on the
  positional access), modelled as `none`;
* `one_simulated_difference` takes the sampled row order `temp` as an
  explicit parameter (the notebook's `df.sample(n=N, replace=False)`,
  whose randomness cannot be embedded; the pandas guarantee that the
  sample is a permutation of the rows becomes a hypothesis).  The Python
  statement assigning the Shuffled Label column mutates the
  caller's frame, so the model returns the caller's frame after the call
  together with the computed value;
* `empirical_P` mirrors
  `np.count_nonzero(differences <= observed_difference) / repetitions`.
-/

namespace ChronicPain

/-- One row of the `bta.csv` table: a group label and a binary result
(0.0 or 1.0 in the notebook, any rational here). -/
structure Row where
  label : Nat
  result : ℚ
deriving DecidableEq, Repr

/-- The sorted distinct group labels, as `df.groupby(group_label)` orders
its groups. -/
def groupKeys (df : List Row) : List Nat :=
  ((df.map Row.label).dedup).insertionSort (· ≤ ·)

/-- Mean of the `Result` column over the rows carrying label `l`:
the value `df.groupby(group_label).mean()` shows for group `l`. -/
def groupMean (df : List Row) (l : Nat) : ℚ :=
  let vs := (df.filter (fun r => r.label == l)).map Row.result
  vs.sum / (vs.length : ℚ)

/-- Python's `abs` on a rational value. -/
def ratAbs (x : ℚ) : ℚ := if x < 0 then -x else x

/-- `difference_of_means_abs(df, group_label)`:
`one_value` and `another_value` are the grouped means at positional rows
0 and 1 (`.iloc(0)[0][0]` and `.iloc(0)[1][0]`), and the function returns
`abs(one_value - another_value)`.  With fewer than two groups the
positional access raises, modelled as `none`. -/
def difference_of_means_abs (df : List Row) : Option ℚ :=
  match groupKeys df with
  | one_value :: another_value :: _ =>
      some (ratAbs (groupMean df one_value - groupMean df another_value))
  | _ => none

/-- The notebook's `bta_df` as loaded from `bta.csv`: 16 Control rows
(2 with result 1) and 15 Treatment rows (9 with result 1); Control is
label 0, Treatment label 1, matching their alphabetical order. -/
def btaRows : List Row :=
  List.replicate 2 ⟨0, 1⟩ ++ List.replicate 14 ⟨0, 0⟩ ++
    List.replicate 9 ⟨1, 1⟩ ++ List.replicate 6 ⟨1, 0⟩

/-- A pandas dataframe as the notebook uses it: the `Group` and `Result`
columns (the rows), plus the mutable `Shuffled Label` column that
`one_simulated_difference` writes onto the caller's frame (`none` before
the first call). -/
structure BtaFrame where
  rows : List Row
  shuffledLabel : Option (List Nat)
deriving DecidableEq, Repr

/-- The frame `one_simulated_difference` hands to `difference_of_means_abs`
after the Shuffled Label column is assigned and the original group column
is dropped: each row keeps its `Result` and takes
the label of the row at the same position of the sampled frame `temp`. -/
def relabel (rows temp : List Row) : List Row :=
  List.zipWith (fun r t => { label := t.label, result := r.result }) rows temp

/-- `one_simulated_difference(df, group_label)` with the outcome of
`df.sample(n=df.shape[0], replace=False).reset_index()` passed explicitly
as `temp` (its randomness is not embedded; that the sample is a
permutation of the rows enters the theorems as a hypothesis).
Returns the frame of the caller after the call — the assignment of the
Shuffled Label column mutates it — together with the value of
`difference_of_means_abs` on the relabeled local frame. -/
def one_simulated_difference (df : BtaFrame) (temp : List Row) :
    BtaFrame × Option ℚ :=
  ({ rows := df.rows, shuffledLabel := some (temp.map Row.label) },
   difference_of_means_abs (relabel df.rows temp))

/-- One iteration of the notebook's resampling loop: run
`one_simulated_difference` on the current frame and append the new value
to the accumulated list `differences`. -/
def simStep (shuffles : Nat → List Row) (acc : List (Option ℚ) × BtaFrame)
    (i : Nat) : List (Option ℚ) × BtaFrame :=
  (acc.1 ++ [(one_simulated_difference acc.2 (shuffles i)).2],
   (one_simulated_difference acc.2 (shuffles i)).1)

/-- The notebook's loop over `np.arange(repetitions)`, appending the value
of `one_simulated_difference` to `differences` at each iteration and
threading the (mutated) frame through; `shuffles i` is the sample drawn at
iteration `i`. -/
def simulationLoop (df : BtaFrame) (shuffles : Nat → List Row)
    (repetitions : Nat) : List (Option ℚ) × BtaFrame :=
  (List.range repetitions).foldl (simStep shuffles) ([], df)

/-- `empirical_P = np.count_nonzero(differences <= observed_difference) / repetitions`:
the number of simulated values less than or equal to the observed one,
divided by the repetition count. -/
def empirical_P (differences : List ℚ) (repetitions : Nat) (observed : ℚ) : ℚ :=
  ((differences.countP (fun d => decide (d ≤ observed)) : ℕ) : ℚ) /
    ((repetitions : ℕ) : ℚ)

/-- The p-value described by the spec's words, for comparison with the
code's `empirical_P`: the fraction of null-distribution values greater
than or equal to the observed value. -/
def specFractionGE (differences : List ℚ) (observed : ℚ) : ℚ :=
  ((differences.countP (fun d => decide (observed ≤ d)) : ℕ) : ℚ) /
    ((differences.length : ℕ) : ℚ)

/-- Swap the two group labels `a` and `b` on a single row. -/
def swapRow (a b : Nat) (r : Row) : Row :=
  if r.label = a then { r with label := b }
  else if r.label = b then { r with label := a }
  else r

/-- Swap which group is called `a` and which `b` on every row of the
dataset. -/
def swapLabels (a b : Nat) (df : List Row) : List Row :=
  df.map (swapRow a b)

/-- Witness dataset: one Control row with result 0, one Treatment row with
result 1. -/
def twoRows : List Row := [⟨0, 0⟩, ⟨1, 1⟩]

/-- Witness dataset with three distinct group labels. -/
def threeGroupRows : List Row := [⟨0, 0⟩, ⟨1, 1⟩, ⟨2, 0⟩, ⟨2, 1⟩]

/-- Witness dataset with a single group: two Control rows. -/
def oneGroupRows : List Row := [⟨0, 0⟩, ⟨0, 1⟩]

/-- Witness sampled frame: the two-row dataset in reversed order. -/
def reversedTemp : List Row := [⟨1, 1⟩, ⟨0, 0⟩]

/-- Witness frame holding the two-row dataset before any shuffling. -/
def startFrame : BtaFrame := { rows := twoRows, shuffledLabel := none }

/-- Witness null distribution of two simulated values. -/
def twoDifferences : List ℚ := [0, 1/2]

theorem ratAbs_eq_abs (x : ℚ) : ratAbs x = |x| := by
  rw [ratAbs]
  split_ifs with h
  · exact (abs_of_neg h).symm
  · exact (abs_of_nonneg (not_lt.mp h)).symm

theorem ratAbs_nonneg (x : ℚ) : 0 ≤ ratAbs x := by
  rw [ratAbs_eq_abs]
  exact abs_nonneg x

theorem ratAbs_sub_comm (x y : ℚ) : ratAbs (x - y) = ratAbs (y - x) := by
  rw [ratAbs_eq_abs, ratAbs_eq_abs, abs_sub_comm]

theorem groupKeys_pair (df : List Row) (a b : Nat) (hab : a < b)
    (ha : ∃ r ∈ df, r.label = a) (hb : ∃ r ∈ df, r.label = b)
    (hl : ∀ r ∈ df, r.label = a ∨ r.label = b) :
    groupKeys df = [a, b] := by
  have hmem : ∀ x, x ∈ (df.map Row.label).dedup ↔ (x = a ∨ x = b) := by
    intro x
    rw [List.mem_dedup, List.mem_map]
    constructor
    · rintro ⟨r, hr, rfl⟩
      exact hl r hr
    · rintro (rfl | rfl)
      · obtain ⟨r, hr, hrx⟩ := ha
        exact ⟨r, hr, hrx⟩
      · obtain ⟨r, hr, hrx⟩ := hb
        exact ⟨r, hr, hrx⟩
  have hperm : List.Perm ((df.map Row.label).dedup) [a, b] := by
    apply List.perm_of_nodup_nodup_toFinset_eq (List.nodup_dedup _)
    · simp [List.nodup_cons, hab.ne]
    · ext x
      simp only [List.mem_toFinset, hmem, List.mem_cons, List.mem_singleton,
        List.not_mem_nil, or_false]
  exact List.eq_of_perm_of_sorted ((List.perm_insertionSort _ _).trans hperm)
    (List.sorted_insertionSort _ _)
    (List.sorted_cons.mpr ⟨by simp [hab.le], List.sorted_singleton b⟩)

theorem diff_of_groupKeys_pair (df : List Row) (a b : Nat) (hab : a < b)
    (ha : ∃ r ∈ df, r.label = a) (hb : ∃ r ∈ df, r.label = b)
    (hl : ∀ r ∈ df, r.label = a ∨ r.label = b) :
    difference_of_means_abs df = some (ratAbs (groupMean df a - groupMean df b)) := by
  rw [difference_of_means_abs, groupKeys_pair df a b hab ha hb hl]

theorem diff_of_two_groups (df : List Row) (a b : Nat) (hab : a ≠ b)
    (ha : ∃ r ∈ df, r.label = a) (hb : ∃ r ∈ df, r.label = b)
    (hl : ∀ r ∈ df, r.label = a ∨ r.label = b) :
    difference_of_means_abs df = some (ratAbs (groupMean df a - groupMean df b)) := by
  rcases hab.lt_or_lt with h | h
  · exact diff_of_groupKeys_pair df a b h ha hb hl
  · rw [diff_of_groupKeys_pair df b a h hb ha (fun r hr => (hl r hr).symm),
      ratAbs_sub_comm]


/-- Claim C2: on a dataset whose two groups are both non-empty, the
statistic `difference_of_means_abs` returns the absolute value of the
difference between the two group means, and that value is non-negative. -/
theorem difference_of_means_abs_of_two_groups (df : List Row) (a b : Nat)
    (hab : a ≠ b) (ha : ∃ r ∈ df, r.label = a) (hb : ∃ r ∈ df, r.label = b)
    (hl : ∀ r ∈ df, r.label = a ∨ r.label = b) :
    difference_of_means_abs df = some (ratAbs (groupMean df a - groupMean df b)) ∧
      0 ≤ ratAbs (groupMean df a - groupMean df b) :=
  ⟨diff_of_two_groups df a b hab ha hb hl, ratAbs_nonneg _⟩

/-- Witness for claim C2 at the two-row dataset. -/
theorem difference_of_means_abs_of_two_groups_witness :
    ((0 : Nat) ≠ 1 ∧ (∃ r ∈ twoRows, r.label = 0) ∧ (∃ r ∈ twoRows, r.label = 1) ∧
        (∀ r ∈ twoRows, r.label = 0 ∨ r.label = 1)) ∧
      (difference_of_means_abs twoRows
          = some (ratAbs (groupMean twoRows 0 - groupMean twoRows 1)) ∧
        0 ≤ ratAbs (groupMean twoRows 0 - groupMean twoRows 1)) :=
  ⟨⟨by decide, by decide, by decide, by decide⟩,
    difference_of_means_abs_of_two_groups twoRows 0 1 (by decide) (by decide)
      (by decide) (by decide)⟩

/-- Claim C6: on the notebook's dataset (16 control rows with 2 successes,
15 treatment rows with 9 successes) the statistic is exactly 0.475. -/
theorem observed_difference_eq : difference_of_means_abs btaRows = some 0.475 := by
  have hk : groupKeys btaRows = [0, 1] := by decide
  have h0 : groupMean btaRows 0 = 1/8 := by
    have h : (btaRows.filter (fun r => r.label == 0)).map Row.result
        = List.replicate 2 1 ++ List.replicate 14 0 := by decide
    simp [groupMean, h, List.sum_replicate]
    norm_num
  have h1 : groupMean btaRows 1 = 3/5 := by
    have h : (btaRows.filter (fun r => r.label == 1)).map Row.result
        = List.replicate 9 1 ++ List.replicate 6 0 := by decide
    simp [groupMean, h, List.sum_replicate]
    norm_num
  rw [difference_of_means_abs, hk]
  show some (ratAbs (groupMean btaRows 0 - groupMean btaRows 1)) = some 0.475
  rw [h0, h1, ratAbs]
  norm_num

/-- Claim C10: with more than two distinct group labels the statistic does
not fail; it returns the absolute difference of the means of the first two
groups in the sorted grouped order, ignoring the rest. -/
theorem difference_of_means_abs_many_groups (df : List Row) (a b : Nat)
    (rest : List Nat) (h : groupKeys df = a :: b :: rest) (_hr : rest ≠ []) :
    difference_of_means_abs df = some (ratAbs (groupMean df a - groupMean df b)) := by
  rw [difference_of_means_abs, h]

/-- Witness for claim C10 at a dataset with three groups. -/
theorem difference_of_means_abs_many_groups_witness :
    (groupKeys threeGroupRows = 0 :: 1 :: [2] ∧ ([2] : List Nat) ≠ []) ∧
      difference_of_means_abs threeGroupRows
        = some (ratAbs (groupMean threeGroupRows 0 - groupMean threeGroupRows 1)) :=
  ⟨⟨by decide, by decide⟩,
    difference_of_means_abs_many_groups threeGroupRows 0 1 [2] (by decide) (by decide)⟩


theorem diff_none_of_single_label (df : List Row) (c : Nat)
    (h : ∀ r ∈ df, r.label = c) :
    difference_of_means_abs df = none := by
  have hmem : ∀ x ∈ groupKeys df, x = c := by
    intro x hx
    rw [groupKeys, List.mem_insertionSort, List.mem_dedup, List.mem_map] at hx
    obtain ⟨r, hr, rfl⟩ := hx
    exact h r hr
  have hnd : (groupKeys df).Nodup :=
    (List.Perm.nodup_iff (List.perm_insertionSort _ _)).mpr (List.nodup_dedup _)
  cases hgk : groupKeys df with
  | nil => rw [difference_of_means_abs, hgk]
  | cons x t =>
    cases t with
    | nil => rw [difference_of_means_abs, hgk]
    | cons y t2 =>
      exfalso
      have hx : x = c := hmem x (by rw [hgk]; exact List.mem_cons_self _ _)
      have hy : y = c := hmem y
        (by rw [hgk]; exact List.mem_cons_of_mem _ (List.mem_cons_self _ _))
      rw [hgk, List.nodup_cons] at hnd
      exact hnd.1 (by rw [hx, hy]; exact List.mem_cons_self _ _)

/-- Claim C8: with every row labelled by one of the two groups, the
statistic computation fails (returns `none`, the Python code raising)
exactly when one of the two groups is empty; in the pure `Option` model
a failure yields no partial result. -/
theorem difference_of_means_abs_error_iff (df : List Row) (a b : Nat)
    (hab : a ≠ b) (hl : ∀ r ∈ df, r.label = a ∨ r.label = b) :
    difference_of_means_abs df = none ↔
      (df.filter (fun r => r.label == a) = [] ∨
        df.filter (fun r => r.label == b) = []) := by
  have hfe : ∀ c : Nat,
      df.filter (fun r => r.label == c) = [] ↔ ∀ r ∈ df, r.label ≠ c := by
    intro c
    rw [List.filter_eq_nil_iff]
    simp
  constructor
  · intro hnone
    by_contra hcon
    push_neg at hcon
    obtain ⟨hfa, hfb⟩ := hcon
    obtain ⟨ra, hra⟩ := List.exists_mem_of_ne_nil _ hfa
    obtain ⟨rb, hrb⟩ := List.exists_mem_of_ne_nil _ hfb
    rw [List.mem_filter, beq_iff_eq] at hra hrb
    rw [diff_of_two_groups df a b hab ⟨ra, hra.1, hra.2⟩ ⟨rb, hrb.1, hrb.2⟩ hl] at hnone
    exact Option.some_ne_none _ hnone
  · intro hor
    rcases hor with hfa | hfb
    · refine diff_none_of_single_label df b (fun r hr => ?_)
      rcases hl r hr with h1 | h1
      · exact absurd h1 ((hfe a).mp hfa r hr)
      · exact h1
    · refine diff_none_of_single_label df a (fun r hr => ?_)
      rcases hl r hr with h1 | h1
      · exact h1
      · exact absurd h1 ((hfe b).mp hfb r hr)

/-- Witness for claim C8 at a dataset whose Treatment group is empty. -/
theorem difference_of_means_abs_error_iff_witness :
    ((0 : Nat) ≠ 1 ∧ (∀ r ∈ oneGroupRows, r.label = 0 ∨ r.label = 1)) ∧
      (difference_of_means_abs oneGroupRows = none ↔
        (oneGroupRows.filter (fun r => r.label == 0) = [] ∨
          oneGroupRows.filter (fun r => r.label == 1) = [])) :=
  ⟨⟨by decide, by decide⟩,
    difference_of_means_abs_error_iff oneGroupRows 0 1 (by decide) (by decide)⟩


theorem swap_filter_left (a b : Nat) (hab : a ≠ b) (df : List Row) :
    ((swapLabels a b df).filter (fun r => r.label == a)).map Row.result
      = (df.filter (fun r => r.label == b)).map Row.result := by
  induction df with
  | nil => rfl
  | cons r t ih =>
    rw [swapLabels, List.map_cons, List.filter_cons, List.filter_cons]
    simp only [swapLabels] at ih
    by_cases h1 : r.label = a
    · simp [swapRow, h1, hab, Ne.symm hab, ih]
    · by_cases h2 : r.label = b
      · simp [swapRow, h1, h2, hab, Ne.symm hab, ih]
      · simp [swapRow, h1, h2, ih]

theorem swap_filter_right (a b : Nat) (hab : a ≠ b) (df : List Row) :
    ((swapLabels a b df).filter (fun r => r.label == b)).map Row.result
      = (df.filter (fun r => r.label == a)).map Row.result := by
  induction df with
  | nil => rfl
  | cons r t ih =>
    rw [swapLabels, List.map_cons, List.filter_cons, List.filter_cons]
    simp only [swapLabels] at ih
    by_cases h1 : r.label = a
    · simp [swapRow, h1, hab, Ne.symm hab, ih]
    · by_cases h2 : r.label = b
      · simp [swapRow, h1, h2, hab, Ne.symm hab, ih]
      · simp [swapRow, h1, h2, ih]

theorem groupMean_swap_left (a b : Nat) (hab : a ≠ b) (df : List Row) :
    groupMean (swapLabels a b df) a = groupMean df b := by
  simp only [groupMean]
  rw [swap_filter_left a b hab df]

theorem groupMean_swap_right (a b : Nat) (hab : a ≠ b) (df : List Row) :
    groupMean (swapLabels a b df) b = groupMean df a := by
  simp only [groupMean]
  rw [swap_filter_right a b hab df]

/-- Claim C3: on a dataset with two non-empty groups, swapping which group
is called `a` and which `b` on every row leaves the value of
`difference_of_means_abs` unchanged. -/
theorem difference_of_means_abs_swap (df : List Row) (a b : Nat) (hab : a ≠ b)
    (ha : ∃ r ∈ df, r.label = a) (hb : ∃ r ∈ df, r.label = b)
    (hl : ∀ r ∈ df, r.label = a ∨ r.label = b) :
    difference_of_means_abs (swapLabels a b df) = difference_of_means_abs df := by
  have ha2 : ∃ r ∈ swapLabels a b df, r.label = a := by
    obtain ⟨r, hr, hrl⟩ := hb
    refine ⟨swapRow a b r, List.mem_map_of_mem _ hr, ?_⟩
    rw [swapRow, if_neg (by rw [hrl]; exact Ne.symm hab), if_pos hrl]
  have hb2 : ∃ r ∈ swapLabels a b df, r.label = b := by
    obtain ⟨r, hr, hrl⟩ := ha
    refine ⟨swapRow a b r, List.mem_map_of_mem _ hr, ?_⟩
    rw [swapRow, if_pos hrl]
  have hl2 : ∀ r ∈ swapLabels a b df, r.label = a ∨ r.label = b := by
    intro r2 hr2
    rw [swapLabels, List.mem_map] at hr2
    obtain ⟨r, hr, rfl⟩ := hr2
    rcases hl r hr with h1 | h1
    · right
      rw [swapRow, if_pos h1]
    · left
      rw [swapRow, if_neg (by rw [h1]; exact Ne.symm hab), if_pos h1]
  rw [diff_of_two_groups (swapLabels a b df) a b hab ha2 hb2 hl2,
    diff_of_two_groups df a b hab ha hb hl,
    groupMean_swap_left a b hab df, groupMean_swap_right a b hab df,
    ratAbs_sub_comm]

/-- Witness for claim C3 at the two-row dataset. -/
theorem difference_of_means_abs_swap_witness :
    ((0 : Nat) ≠ 1 ∧ (∃ r ∈ twoRows, r.label = 0) ∧ (∃ r ∈ twoRows, r.label = 1) ∧
        (∀ r ∈ twoRows, r.label = 0 ∨ r.label = 1)) ∧
      difference_of_means_abs (swapLabels 0 1 twoRows)
        = difference_of_means_abs twoRows :=
  ⟨⟨by decide, by decide, by decide, by decide⟩,
    difference_of_means_abs_swap twoRows 0 1 (by decide) (by decide) (by decide)
      (by decide)⟩

theorem relabel_map_label (rows temp : List Row) (h : rows.length = temp.length) :
    (relabel rows temp).map Row.label = temp.map Row.label := by
  induction rows generalizing temp with
  | nil =>
    cases temp with
    | nil => rfl
    | cons t ts => simp at h
  | cons r rs ih =>
    cases temp with
    | nil => simp at h
    | cons t ts =>
      have h2 : rs.length = ts.length := by simpa using h
      show t.label :: (relabel rs ts).map Row.label = t.label :: ts.map Row.label
      rw [ih ts h2]

/-- Claim C4: when the sampled frame `temp` is a permutation of the rows,
the relabeling built inside `one_simulated_difference` carries a label
sequence that is a permutation of the original one, and each group keeps
its original size. -/
theorem relabel_preserves_group_sizes (df : BtaFrame) (temp : List Row)
    (l : Nat) (hperm : List.Perm temp df.rows) :
    List.Perm ((relabel df.rows temp).map Row.label) (df.rows.map Row.label) ∧
      ((relabel df.rows temp).filter (fun r => r.label == l)).length
        = (df.rows.filter (fun r => r.label == l)).length := by
  have hlen : df.rows.length = temp.length := hperm.length_eq.symm
  have hmap : (relabel df.rows temp).map Row.label = temp.map Row.label :=
    relabel_map_label _ _ hlen
  have hp : List.Perm ((relabel df.rows temp).map Row.label)
      (df.rows.map Row.label) := by
    rw [hmap]
    exact hperm.map Row.label
  refine ⟨hp, ?_⟩
  have key : ∀ xs : List Row,
      (xs.filter (fun r => r.label == l)).length
        = (xs.map Row.label).countP (fun x => x == l) := by
    intro xs
    rw [← List.countP_eq_length_filter, List.countP_map]
    rfl
  rw [key, key, hp.countP_eq]

/-- Witness for claim C4 at the two-row dataset and the reversing sample. -/
theorem relabel_preserves_group_sizes_witness :
    List.Perm reversedTemp startFrame.rows ∧
      (List.Perm ((relabel startFrame.rows reversedTemp).map Row.label)
          (startFrame.rows.map Row.label) ∧
        ((relabel startFrame.rows reversedTemp).filter
            (fun r => r.label == 0)).length
          = (startFrame.rows.filter (fun r => r.label == 0)).length) :=
  ⟨List.Perm.swap _ _ _,
    relabel_preserves_group_sizes startFrame reversedTemp 0 (List.Perm.swap _ _ _)⟩


theorem simulationLoop_len_aux (shuffles : Nat → List Row) :
    ∀ (l : List Nat) (acc : List (Option ℚ) × BtaFrame),
      ((l.foldl (simStep shuffles) acc).1).length = acc.1.length + l.length := by
  intro l
  induction l with
  | nil =>
    intro acc
    simp
  | cons i t ih =>
    intro acc
    rw [List.foldl_cons, ih]
    simp only [simStep, List.length_append, List.length_cons, List.length_nil]
    omega

/-- Claim C7: the resampling loop appends exactly one statistic value per
iteration, so after `R > 0` iterations the null distribution holds exactly
`R` values (in particular one more than after `R - 1`). -/
theorem simulationLoop_length (df : BtaFrame) (shuffles : Nat → List Row)
    (R : Nat) (hR : 0 < R) :
    ((simulationLoop df shuffles R).1).length = R ∧
      ((simulationLoop df shuffles R).1).length
        = ((simulationLoop df shuffles (R - 1)).1).length + 1 := by
  have hlen : ∀ n : Nat, ((simulationLoop df shuffles n).1).length = n := by
    intro n
    rw [simulationLoop, simulationLoop_len_aux]
    simp
  refine ⟨hlen R, ?_⟩
  rw [hlen, hlen]
  omega

/-- Witness for claim C7 at three repetitions. -/
theorem simulationLoop_length_witness :
    0 < 3 ∧
      (((simulationLoop startFrame (fun _ => reversedTemp) 3).1).length = 3 ∧
        ((simulationLoop startFrame (fun _ => reversedTemp) 3).1).length
          = ((simulationLoop startFrame (fun _ => reversedTemp) (3 - 1)).1).length + 1) :=
  ⟨by decide, simulationLoop_length startFrame (fun _ => reversedTemp) 3 (by decide)⟩

/-- Claim C5: with a positive repetition count equal to the size of the
null distribution, the empirical p-value lies in the closed interval
from 0 to 1. -/
theorem empirical_P_mem_unit_interval (differences : List ℚ) (R : Nat)
    (observed : ℚ) (hlen : differences.length = R) (hR : 0 < R) :
    0 ≤ empirical_P differences R observed ∧
      empirical_P differences R observed ≤ 1 := by
  have hc : differences.countP (fun d => decide (d ≤ observed)) ≤ R := by
    rw [← hlen]
    exact List.countP_le_length _
  constructor
  · rw [empirical_P]
    exact div_nonneg (Nat.cast_nonneg _) (Nat.cast_nonneg _)
  · rw [empirical_P, div_le_one (by exact_mod_cast hR)]
    exact_mod_cast hc

/-- Witness for claim C5 at a two-value null distribution. -/
theorem empirical_P_mem_unit_interval_witness :
    (twoDifferences.length = 2 ∧ 0 < 2) ∧
      (0 ≤ empirical_P twoDifferences 2 (1/4) ∧
        empirical_P twoDifferences 2 (1/4) ≤ 1) :=
  ⟨⟨by decide, by decide⟩,
    empirical_P_mem_unit_interval twoDifferences 2 (1/4) (by decide) (by decide)⟩

/-- Counterexample to claim C1: on the singleton null distribution `[0]`
with observed value `1`, the code's `empirical_P` (which compares with
less-or-equal) gives 1, while the fraction of null values greater than or
equal to the observed value is 0. -/
theorem empirical_P_ne_fraction_ge :
    empirical_P [0] 1 1 ≠ specFractionGE [0] 1 := by
  rw [empirical_P, specFractionGE]
  simp only [List.countP_cons, List.countP_nil, decide_eq_true_eq, List.length_cons,
    List.length_nil]
  norm_num

/-- Claim C1 (amended): the empirical p-value equals the fraction of
null-distribution values less than or equal to the observed value, for
every non-empty null distribution whose size is the repetition count. -/
theorem empirical_P_eq_fraction_le (differences : List ℚ) (R : Nat)
    (observed : ℚ) (hlen : differences.length = R) (_hR : 0 < R) :
    empirical_P differences R observed
      = ((differences.filter (fun d => decide (d ≤ observed))).length : ℚ)
          / ((differences.length : ℕ) : ℚ) := by
  rw [empirical_P, List.countP_eq_length_filter, hlen]

/-- Witness for claim C1 (amended) at the two-value null distribution. -/
theorem empirical_P_eq_fraction_le_witness :
    (twoDifferences.length = 2 ∧ 0 < 2) ∧
      empirical_P twoDifferences 2 (1/4)
        = ((twoDifferences.filter (fun d => decide (d ≤ 1/4))).length : ℚ)
            / ((twoDifferences.length : ℕ) : ℚ) :=
  ⟨⟨by decide, by decide⟩,
    empirical_P_eq_fraction_le twoDifferences 2 (1/4) (by decide) (by decide)⟩

/-- Counterexample to claim C9: one resampling iteration (with a sample
that is a permutation of the rows) changes the caller's dataframe — the
call writes the `Shuffled Label` column onto it. -/
theorem one_simulated_difference_mutates :
    List.Perm reversedTemp startFrame.rows ∧
      (one_simulated_difference startFrame reversedTemp).1 ≠ startFrame := by
  refine ⟨List.Perm.swap _ _ _, fun h => ?_⟩
  have h2 := congrArg BtaFrame.shuffledLabel h
  simp [one_simulated_difference, startFrame] at h2

/-- Claim C9 (amended): a resampling iteration never changes the dataset's
rows (their labels and results); the only effect on the caller's frame is
that the `Shuffled Label` column is set to the sampled label sequence. -/
theorem one_simulated_difference_preserves_rows (df : BtaFrame)
    (temp : List Row) :
    (one_simulated_difference df temp).1.rows = df.rows ∧
      (one_simulated_difference df temp).1.shuffledLabel
        = some (temp.map Row.label) :=
  ⟨rfl, rfl⟩

end ChronicPain
